import Mathlib

/-!
Verification of the image-processor task service.

Shallow embedding of the repository's task orchestration
(`src/modules/tasks/task.service.ts`), content fetcher
(`src/modules/images/file.service.ts`), variant renderer
(`src/modules/images/image.service.ts`), error taxonomy
(`src/common/errors.ts`) and the request validation schema
(`src/common/validation.ts`, controller `task.controller.ts`).

External library calls (base64 decoding, JPEG re-encoding, MD5) are taken
as function parameters; random draws and clock reads are explicit inputs.
Machine effects (database writes, file writes/deletes) are modelled as
explicit traces of operations.
-/

namespace ImgProc

/-- Task lifecycle status, `src/modules/tasks/task.model.ts`. -/
inductive Status
  | pending
  | completed
  | failed
deriving DecidableEq, Repr

/-- The error classes of `src/common/errors.ts`, distinguished by their
`code` field; `generic` stands for a plain JS `Error` (e.g. a `fetch`
transport failure). -/
inductive ErrKind
  | validation
  | notFound
  | processing
  | fileSystem
  | database
  | generic
deriving DecidableEq, Repr

/-- An error value: its class together with its `message`. -/
structure Err where
  kind : ErrKind
  msg : String
deriving DecidableEq, Repr

/-- `new ValidationError(msg)`. -/
def validationError (m : String) : Err := ⟨ErrKind.validation, m⟩

/-- `new NotFoundError(msg)`. -/
def notFoundError (m : String) : Err := ⟨ErrKind.notFound, m⟩

/-- `new ProcessingError(msg)`. -/
def processingError (m : String) : Err := ⟨ErrKind.processing, m⟩

/-- `new FileSystemError(msg)`. -/
def fileSystemError (m : String) : Err := ⟨ErrKind.fileSystem, m⟩

/-- A task row as persisted by the mongoose `Task` model. -/
structure TaskDoc where
  taskId : String
  status : Status
  price : ℤ
  originalPath : Option String
  err : Option String
  createdAt : Nat
  updatedAt : Nat
  completedAt : Option Nat
deriving DecidableEq, Repr

/-- A variant row as persisted by the mongoose `Image` model. -/
structure VariantRow where
  taskId : String
  resolution : String
  path : String
  md5 : String
  createdAt : Nat
deriving DecidableEq, Repr

/-- One entry of the `images` array of a `TaskResult`. -/
structure ImageResult where
  resolution : String
  path : String
  md5 : String
  createdAt : Nat
deriving DecidableEq, Repr

/-- The `TaskResult` interface of `src/types/index.ts`; `images = none`
models the field being omitted (`undefined`). -/
structure TaskResult where
  taskId : String
  status : Status
  price : ℤ
  originalPath : Option String
  createdAt : Nat
  updatedAt : Nat
  completedAt : Option Nat
  error : Option String
  images : Option (List ImageResult)
deriving DecidableEq, Repr

/-- The `CreateTaskRequest` body: each field an optional string. -/
structure CreateTaskRequest where
  imageUrl : Option String
  imageFile : Option String
deriving DecidableEq, Repr

/-- JS truthiness of an optional string: `undefined` and `""` are falsy. -/
def truthy : Option String → Bool
  | none => false
  | some s => !(s = "")

/-- `generateRandomPrice`: `Math.floor(Math.random() * 46) + 5`, with the
`Math.random()` draw `q ∈ [0,1)` made explicit. -/
def generateRandomPrice (q : ℚ) : ℤ := ⌊q * 46⌋ + 5

/-- `mapTaskToResult`: attaches images only when status is `completed`;
`task.error || undefined` maps an empty string to an omitted field. -/
def mapTaskToResult (t : TaskDoc) (images : List VariantRow) : TaskResult :=
  { taskId := t.taskId
    status := t.status
    price := t.price
    originalPath := t.originalPath
    createdAt := t.createdAt
    updatedAt := t.updatedAt
    completedAt := t.completedAt
    error := match t.err with
      | none => none
      | some s => if s = "" then none else some s
    images := if t.status = Status.completed then
        some (images.map (fun img =>
          { resolution := img.resolution
            path := img.path
            md5 := img.md5
            createdAt := img.createdAt }))
      else none }

/-- The fresh task row built by `createTask` before `task.save()`
(mongoose fills `createdAt`/`updatedAt` from `timestamps: true`). -/
def initialTask (taskId : String) (price : ℤ) (now : Nat) : TaskDoc :=
  { taskId := taskId
    status := Status.pending
    price := price
    originalPath := none
    err := none
    createdAt := now
    updatedAt := now
    completedAt := none }

/-- The body of `TaskService.createTask` inside its `try`: validation,
then building and saving the pending row. -/
def createTaskBody (q : ℚ) (taskId : String) (now : Nat)
    (req : CreateTaskRequest) : Except Err (TaskDoc × TaskResult) :=
  if !(truthy req.imageUrl) && !(truthy req.imageFile) then
    Except.error (validationError "Either imageUrl or imageFile must be provided")
  else if truthy req.imageUrl && truthy req.imageFile then
    Except.error (validationError "Either imageUrl or imageFile must be provided, but not both")
  else
    let task := initialTask taskId (generateRandomPrice q) now
    Except.ok (task, mapTaskToResult task [])

/-- Outcome of a creation call: what it returns or throws, and which task
rows it wrote to the store. -/
structure CreateOutcome where
  result : Except Err TaskResult
  writtenTasks : List TaskDoc
deriving Repr

/-- `TaskService.createTask`: the body wrapped by the catch-all that
rethrows any error as `ProcessingError("Failed to create task: ...")`. -/
def createTaskService (q : ℚ) (taskId : String) (now : Nat)
    (req : CreateTaskRequest) : CreateOutcome :=
  match createTaskBody q taskId now req with
  | Except.ok (task, res) => ⟨Except.ok res, [task]⟩
  | Except.error e =>
      ⟨Except.error (processingError ("Failed to create task: " ++ e.msg)), []⟩

/-- `CreateTaskRequestSchema.parse`: field checks (`z.url()`, `min(1)`),
the exactly-one refinement, then the `|| undefined` transform. URL
validity (`z.url()`) is an abstract predicate `urlOk`. Every `ZodError`
is converted by the controller into a `ValidationError` with message
`"Invalid request data"`. -/
def zodCreateTaskParse (urlOk : String → Bool) (r : CreateTaskRequest) :
    Except Err CreateTaskRequest :=
  if (match r.imageUrl with | some u => !(urlOk u) | none => false) then
    Except.error (validationError "Invalid request data")
  else if (match r.imageFile with | some f => f.length == 0 | none => false) then
    Except.error (validationError "Invalid request data")
  else if r.imageUrl = none && r.imageFile = none then
    Except.error (validationError "Invalid request data")
  else if !(r.imageUrl = none) && !(r.imageFile = none) then
    Except.error (validationError "Invalid request data")
  else
    Except.ok
      { imageUrl := match r.imageUrl with
          | none => none
          | some s => if s = "" then none else some s
        imageFile := match r.imageFile with
          | none => none
          | some s => if s = "" then none else some s }

/-- `TaskController.createTask`: Zod validation first; on success the
service runs; on `ZodError` a `ValidationError` is surfaced and the
service is never invoked (so nothing is written). -/
def controllerCreateTask (urlOk : String → Bool) (q : ℚ) (taskId : String)
    (now : Nat) (body : CreateTaskRequest) : CreateOutcome :=
  match zodCreateTaskParse urlOk body with
  | Except.error e => ⟨Except.error e, []⟩
  | Except.ok validated => createTaskService q taskId now validated

/-- The durable store: task rows and variant rows. -/
structure Store where
  tasks : List TaskDoc
  images : List VariantRow
deriving DecidableEq, Repr

/-- `TaskService.getTask`: `Task.findOne`, the completed-only variant
lookup, and `mapTaskToResult`. -/
def getTask (store : Store) (taskId : String) : Except Err TaskResult :=
  match store.tasks.find? (fun t => t.taskId = taskId) with
  | none => Except.error (notFoundError ("Task not found: " ++ taskId))
  | some t =>
      let images :=
        if t.status = Status.completed then
          store.images.filter (fun img => img.taskId = taskId)
        else []
      Except.ok (mapTaskToResult t images)

/-- `markTaskAsCompleted`: sets status, `completedAt` and `updatedAt`. -/
def markTaskAsCompleted (now : Nat) (t : TaskDoc) : TaskDoc :=
  { t with status := Status.completed, completedAt := some now, updatedAt := now }

/-- `markTaskAsFailed`: sets status, `error` and `updatedAt` — it does
not touch `completedAt`. -/
def markTaskAsFailed (now : Nat) (msg : String) (t : TaskDoc) : TaskDoc :=
  { t with status := Status.failed, err := some msg, updatedAt := now }

/-- The `FileInfo` record returned by the file service. -/
structure FileInfo where
  path : String
  name : String
  size : Nat
  type : String
deriving DecidableEq, Repr

/-- One entry of `imageService.processImage`'s result (the fields the
orchestrator reads). -/
structure ProcessedVariant where
  resolution : String
  path : String
  md5 : String
deriving DecidableEq, Repr

/-- Environment of one background run: the outcome of the n-th
file-service fetch call (`saveBase64File`/`downloadFromUrl`; the catch
block may invoke it a second time), the renderer outcome, the
`Image.insertMany` outcome, and the clock values observed. -/
structure RunEnv where
  fetch : Nat → Except Err FileInfo
  render : Except Err (List ProcessedVariant)
  insert : Except Err Unit
  now : Nat
  imgNow : Nat

/-- A write against the task/variant store. -/
inductive StoreWrite
  | setOriginalPath (taskId : String) (path : String)
  | insertVariants (rows : List VariantRow)
  | setCompleted (now : Nat)
  | setFailed (now : Nat) (msg : String)
deriving DecidableEq, Repr

/-- A scratch-file operation performed by the file service. -/
inductive FileOp
  | write (p : String)
  | cleanup (p : String)
deriving DecidableEq, Repr

/-- Trace of one background run: store writes, file operations, and the
error escaping `processImageAsync` (if any). -/
structure RunTrace where
  storeWrites : List StoreWrite
  fileOps : List FileOp
  thrown : Option Err
deriving DecidableEq, Repr

/-- The source-resolution step of `processImageAsync`: `saveBase64File`
when an inline payload is present, else `downloadFromUrl`, else a
`ValidationError`. `attempt` counts the invocation (the catch block
re-invokes the fetch). -/
def sourceFetch (req : CreateTaskRequest) (env : RunEnv) (attempt : Nat) :
    Except Err FileInfo :=
  if truthy req.imageFile then env.fetch attempt
  else if truthy req.imageUrl then env.fetch attempt
  else Except.error (validationError "No image source provided")

/-- The catch block of `processImageAsync`: when a source is present it
re-invokes the fetch (writing a fresh scratch file) and best-effort
deletes that fresh file; an error there is only logged. -/
def catchCleanupOps (req : CreateTaskRequest) (env : RunEnv) : List FileOp :=
  if truthy req.imageFile || truthy req.imageUrl then
    match sourceFetch req env 1 with
    | Except.ok fi2 => [FileOp.write fi2.path, FileOp.cleanup fi2.path]
    | Except.error _ => []
  else []

/-- `processImageAsync`: fetch, record the source path, render, persist
variant rows, mark completed, clean up the scratch file; on any throw
the catch block runs and the error is rethrown. -/
def processRun (req : CreateTaskRequest) (env : RunEnv) (taskId : String) :
    RunTrace :=
  match sourceFetch req env 0 with
  | Except.error e =>
      { storeWrites := []
        fileOps := catchCleanupOps req env
        thrown := some e }
  | Except.ok fi =>
      match env.render with
      | Except.error e =>
          { storeWrites := [StoreWrite.setOriginalPath taskId fi.path]
            fileOps := [FileOp.write fi.path] ++ catchCleanupOps req env
            thrown := some e }
      | Except.ok imgs =>
          let rows := imgs.map (fun im =>
            VariantRow.mk taskId im.resolution im.path im.md5 env.imgNow)
          match env.insert with
          | Except.error e =>
              { storeWrites := [StoreWrite.setOriginalPath taskId fi.path]
                fileOps := [FileOp.write fi.path] ++ catchCleanupOps req env
                thrown := some e }
          | Except.ok _ =>
              { storeWrites := [StoreWrite.setOriginalPath taskId fi.path,
                                StoreWrite.insertVariants rows,
                                StoreWrite.setCompleted env.now]
                fileOps := [FileOp.write fi.path, FileOp.cleanup fi.path]
                thrown := none }

/-- The whole background unit: `processImageAsync` plus the `.catch`
continuation attached in `createTask`, which performs the single
terminal `markTaskAsFailed` write with the escaped error's message. -/
def backgroundRun (req : CreateTaskRequest) (env : RunEnv) (taskId : String) :
    RunTrace :=
  let tr := processRun req env taskId
  match tr.thrown with
  | none => tr
  | some e =>
      { tr with storeWrites :=
          tr.storeWrites ++ [StoreWrite.setFailed env.now e.msg] }

/-- Replay one store write against a task row. -/
def applyWrite (t : TaskDoc) : StoreWrite → TaskDoc
  | StoreWrite.setOriginalPath _ p => { t with originalPath := some p }
  | StoreWrite.insertVariants _ => t
  | StoreWrite.setCompleted now => markTaskAsCompleted now t
  | StoreWrite.setFailed now msg => markTaskAsFailed now msg t

/-- Replay a list of store writes. -/
def applyWrites (t : TaskDoc) (ws : List StoreWrite) : TaskDoc :=
  ws.foldl applyWrite t

/-- A write that sets a terminal status. -/
def isTerminalWrite : StoreWrite → Bool
  | StoreWrite.setCompleted _ => true
  | StoreWrite.setFailed _ _ => true
  | _ => false

/-- All pipeline stages succeed: a source is present and fetch, render
and variant persistence all return without error. -/
def allStagesOk (req : CreateTaskRequest) (env : RunEnv) : Bool :=
  (truthy req.imageFile || truthy req.imageUrl) &&
  (match sourceFetch req env 0 with | Except.ok _ => true | Except.error _ => false) &&
  (match env.render with | Except.ok _ => true | Except.error _ => false) &&
  (match env.insert with | Except.ok _ => true | Except.error _ => false)

/-- The unique terminal write a run performs, as a function of the
escaped error. -/
def termOf (env : RunEnv) : Option Err → StoreWrite
  | none => StoreWrite.setCompleted env.now
  | some e => StoreWrite.setFailed env.now e.msg

/-- C1: every created task row starts `pending`; the background run
performs exactly one terminal status write — `setCompleted` when every
stage (fetch, render, variant persistence) succeeds, `setFailed`
carrying the triggering error's message otherwise — that terminal write
is the last store write of the run, and replaying the writes the status
is `pending` until the terminal write and terminal afterwards. -/
theorem task_lifecycle_single_terminal_write
    (req : CreateTaskRequest) (env : RunEnv) (taskId : String)
    (q : ℚ) (now0 : Nat) (pr : ℤ) :
    ((createTaskService q taskId now0 req).writtenTasks.all
        (fun t => decide (t.status = Status.pending))) = true
    ∧ (backgroundRun req env taskId).storeWrites.filter
        (fun w => isTerminalWrite w)
        = [termOf env (backgroundRun req env taskId).thrown]
    ∧ (backgroundRun req env taskId).storeWrites.getLast?
        = some (termOf env (backgroundRun req env taskId).thrown)
    ∧ ((backgroundRun req env taskId).thrown = none ↔ allStagesOk req env = true)
    ∧ (applyWrites (initialTask taskId pr now0)
        (backgroundRun req env taskId).storeWrites.dropLast).status = Status.pending
    ∧ (applyWrites (initialTask taskId pr now0)
        (backgroundRun req env taskId).storeWrites).status
        = (match (backgroundRun req env taskId).thrown with
           | none => Status.completed
           | some _ => Status.failed) := by
  cases hf : truthy req.imageFile <;> cases hu : truthy req.imageUrl
  case false.false =>
    simp [createTaskService, createTaskBody, hf, hu, backgroundRun, processRun,
      sourceFetch, catchCleanupOps, allStagesOk, termOf, applyWrites, applyWrite,
      markTaskAsFailed, initialTask, isTerminalWrite]
  all_goals
    cases h0 : env.fetch 0 with
    | error e =>
        cases hr : env.render <;> cases hi : env.insert <;>
        simp [createTaskService, createTaskBody, hf, hu, backgroundRun, processRun,
          sourceFetch, catchCleanupOps, allStagesOk, termOf, applyWrites, applyWrite,
          markTaskAsFailed, initialTask, isTerminalWrite, h0, hr, hi]
    | ok fi =>
        cases hr : env.render with
        | error e =>
            cases hi : env.insert <;>
            simp [createTaskService, createTaskBody, hf, hu, backgroundRun, processRun,
              sourceFetch, catchCleanupOps, allStagesOk, termOf, applyWrites, applyWrite,
              markTaskAsFailed, initialTask, isTerminalWrite, h0, hr, hi]
        | ok imgs =>
            cases hi : env.insert with
            | error e =>
                simp [createTaskService, createTaskBody, hf, hu, backgroundRun, processRun,
                  sourceFetch, catchCleanupOps, allStagesOk, termOf, applyWrites, applyWrite,
                  markTaskAsFailed, initialTask, isTerminalWrite, h0, hr, hi]
            | ok u =>
                simp [createTaskService, createTaskBody, hf, hu, backgroundRun, processRun,
                  sourceFetch, catchCleanupOps, allStagesOk, termOf, applyWrites, applyWrite,
                  markTaskAsCompleted, initialTask, isTerminalWrite, h0, hr, hi]

/-- C2: a creation request that supplies neither source field, or that
supplies both, is rejected by the creation path (Zod schema + controller)
with a validation error, and no task row is written; the task service is
never reached. -/
theorem create_rejects_zero_or_two_sources
    (urlOk : String → Bool) (q : ℚ) (taskId : String) (now : Nat)
    (body : CreateTaskRequest)
    (h : (body.imageUrl = none ∧ body.imageFile = none)
       ∨ (∃ u f, body.imageUrl = some u ∧ body.imageFile = some f)) :
    ∃ e, (controllerCreateTask urlOk q taskId now body).result = Except.error e
      ∧ e.kind = ErrKind.validation
      ∧ (controllerCreateTask urlOk q taskId now body).writtenTasks = [] := by
  rcases h with ⟨hu, hf⟩ | ⟨u, f, hu, hf⟩
  · refine ⟨validationError "Invalid request data", ?_, rfl, ?_⟩ <;>
      simp [controllerCreateTask, zodCreateTaskParse, hu, hf]
  · by_cases hok : urlOk u = true
    · by_cases hlen : f.length = 0
      · refine ⟨validationError "Invalid request data", ?_, rfl, ?_⟩ <;>
          simp [controllerCreateTask, zodCreateTaskParse, hu, hf, hok, hlen]
      · refine ⟨validationError "Invalid request data", ?_, rfl, ?_⟩ <;>
          simp [controllerCreateTask, zodCreateTaskParse, hu, hf, hok, hlen]
    · refine ⟨validationError "Invalid request data", ?_, rfl, ?_⟩ <;>
        simp [controllerCreateTask, zodCreateTaskParse, hu, hf, hok]

/-- Witness for C2: the empty body and a body carrying both fields are
rejected with a validation error and nothing is written. -/
theorem create_rejects_zero_or_two_sources_witness :
    ∃ e, (controllerCreateTask (fun _ => true) (1/2) "t1" 0
            ⟨none, none⟩).result = Except.error e
      ∧ e.kind = ErrKind.validation
      ∧ (controllerCreateTask (fun _ => true) (1/2) "t1" 0
            ⟨none, none⟩).writtenTasks = [] :=
  create_rejects_zero_or_two_sources (fun _ => true) (1/2) "t1" 0
    ⟨none, none⟩ (Or.inl ⟨rfl, rfl⟩)

/-- C3: when `getTask` finds a task, the result carries an `images`
field exactly when the task is `completed` (in which case it is the list
of that task's variant rows); for a `pending` or `failed` task the field
is omitted even if variant rows for the id exist in the store. -/
theorem getTask_variants_iff_completed
    (store : Store) (tid : String) (t : TaskDoc)
    (hfind : store.tasks.find? (fun x => x.taskId = tid) = some t) :
    ∃ res, getTask store tid = Except.ok res
      ∧ (res.images ≠ none ↔ t.status = Status.completed)
      ∧ (t.status = Status.completed →
          res.images = some ((store.images.filter
            (fun img => img.taskId = tid)).map (fun img =>
              ImageResult.mk img.resolution img.path img.md5 img.createdAt)))
      ∧ (t.status ≠ Status.completed → res.images = none) := by
  refine ⟨mapTaskToResult t (if t.status = Status.completed then
      store.images.filter (fun img => img.taskId = tid) else []),
    by simp [getTask, hfind], ?_, ?_, ?_⟩ <;>
    cases hs : t.status <;>
      simp [mapTaskToResult, hs]

/-- Witness for C3: a pending task whose id has a variant row in storage
still reports no `images` field. -/
theorem getTask_variants_iff_completed_witness :
    ∃ res, getTask ⟨[initialTask "t1" 10 0],
        [VariantRow.mk "t1" "1024" "/output/p" "h" 0]⟩ "t1" = Except.ok res
      ∧ (res.images ≠ none ↔ (initialTask "t1" 10 0).status = Status.completed)
      ∧ ((initialTask "t1" 10 0).status = Status.completed →
          res.images = some (((⟨[initialTask "t1" 10 0],
              [VariantRow.mk "t1" "1024" "/output/p" "h" 0]⟩ : Store).images.filter
            (fun img => img.taskId = "t1")).map (fun img =>
              ImageResult.mk img.resolution img.path img.md5 img.createdAt)))
      ∧ ((initialTask "t1" 10 0).status ≠ Status.completed →
          res.images = none) :=
  getTask_variants_iff_completed
    ⟨[initialTask "t1" 10 0], [VariantRow.mk "t1" "1024" "/output/p" "h" 0]⟩
    "t1" (initialTask "t1" 10 0) (by rfl)

/-- C4 (amended): `completedAt` is set exactly once and only at the
transition to `completed`: `markTaskAsCompleted` stamps it,
`markTaskAsFailed` leaves it untouched, and replaying a full background
run from a fresh row it is unset before the terminal write and afterwards
equals the completion stamp on success and stays unset on failure. -/
theorem completedAt_only_on_completed_transition
    (req : CreateTaskRequest) (env : RunEnv) (taskId : String)
    (now now0 : Nat) (msg : String) (t : TaskDoc) (pr : ℤ) :
    (markTaskAsCompleted now t).completedAt = some now
    ∧ (markTaskAsFailed now msg t).completedAt = t.completedAt
    ∧ (applyWrites (initialTask taskId pr now0)
        (backgroundRun req env taskId).storeWrites.dropLast).completedAt = none
    ∧ (applyWrites (initialTask taskId pr now0)
        (backgroundRun req env taskId).storeWrites).completedAt
        = (match (backgroundRun req env taskId).thrown with
           | none => some env.now
           | some _ => none) := by
  refine ⟨rfl, rfl, ?_, ?_⟩ <;>
  · cases hf : truthy req.imageFile <;> cases hu : truthy req.imageUrl
    case false.false =>
      simp [backgroundRun, processRun, sourceFetch, hf, hu, applyWrites,
        applyWrite, markTaskAsFailed, initialTask]
    all_goals
      cases h0 : env.fetch 0 with
      | error e =>
          simp [backgroundRun, processRun, sourceFetch, hf, hu, h0, applyWrites,
            applyWrite, markTaskAsFailed, initialTask]
      | ok fi =>
          cases hr : env.render with
          | error e =>
              simp [backgroundRun, processRun, sourceFetch, hf, hu, h0, hr,
                applyWrites, applyWrite, markTaskAsFailed, initialTask]
          | ok imgs =>
              cases hi : env.insert <;>
                simp [backgroundRun, processRun, sourceFetch, hf, hu, h0, hr, hi,
                  applyWrites, applyWrite, markTaskAsFailed, markTaskAsCompleted,
                  initialTask]

/-- Counterexample to C4 as stated: the transition to `failed` does not
set `completedAt` — a fresh pending row marked failed ends with status
`failed` but `completedAt` still unset. -/
theorem failed_transition_leaves_completedAt_unset :
    (markTaskAsFailed 7 "boom" (initialTask "t1" 10 0)).status = Status.failed
    ∧ (markTaskAsFailed 7 "boom" (initialTask "t1" 10 0)).completedAt = none :=
  ⟨rfl, rfl⟩

/-- C6: a valid creation request returns status `pending` and a price in
[5, 50]; moreover the draw is uniform — for each price k in the range the
set of raw draws mapped to k is the interval [(k-5)/46, (k-4)/46), all of
equal length. -/
theorem createTask_price_range_status_pending
    (q : ℚ) (taskId : String) (now : Nat) (req : CreateTaskRequest)
    (hq0 : 0 ≤ q) (hq1 : q < 1)
    (hvalid : truthy req.imageUrl ≠ truthy req.imageFile) :
    ∃ res, (createTaskService q taskId now req).result = Except.ok res
      ∧ res.status = Status.pending
      ∧ res.price = generateRandomPrice q
      ∧ 5 ≤ res.price ∧ res.price ≤ 50
      ∧ (∀ k : ℤ, generateRandomPrice q = k ↔
           ((k : ℚ) - 5) / 46 ≤ q ∧ q < ((k : ℚ) - 4) / 46) := by
  have hfloor0 : (0 : ℤ) ≤ ⌊q * 46⌋ := by
    apply Int.floor_nonneg.mpr
    positivity
  have hfloor45 : ⌊q * 46⌋ < 46 := by
    rw [Int.floor_lt]
    calc q * 46 < 1 * 46 := by
          apply mul_lt_mul_of_pos_right hq1
          norm_num
      _ = 46 := by norm_num
  have hok : (createTaskService q taskId now req).result
      = Except.ok (mapTaskToResult
          (initialTask taskId (generateRandomPrice q) now) []) := by
    cases hu : truthy req.imageUrl <;> cases hf : truthy req.imageFile
    · exact absurd (hu.trans hf.symm) hvalid
    · simp [createTaskService, createTaskBody, hu, hf]
    · simp [createTaskService, createTaskBody, hu, hf]
    · exact absurd (hu.trans hf.symm) hvalid
  refine ⟨_, hok, rfl, rfl, ?_, ?_, ?_⟩
  · show (5 : ℤ) ≤ generateRandomPrice q
    unfold generateRandomPrice
    omega
  · show generateRandomPrice q ≤ 50
    unfold generateRandomPrice
    omega
  · intro k
    unfold generateRandomPrice
    constructor
    · intro hk
      have hfl : ⌊q * 46⌋ = k - 5 := by omega
      have h1 : ((k : ℚ) - 5) ≤ q * 46 := by
        have := Int.floor_le (q * 46)
        rw [hfl] at this
        push_cast at this
        linarith
      have h2 : q * 46 < (k : ℚ) - 4 := by
        have := Int.lt_floor_add_one (q * 46)
        rw [hfl] at this
        push_cast at this
        linarith
      constructor
      · rw [div_le_iff₀ (by norm_num : (0:ℚ) < 46)]
        linarith
      · rw [lt_div_iff₀ (by norm_num : (0:ℚ) < 46)]
        linarith
    · rintro ⟨h1, h2⟩
      have h1' : ((k : ℚ) - 5) ≤ q * 46 := by
        rw [div_le_iff₀ (by norm_num : (0:ℚ) < 46)] at h1
        linarith
      have h2' : q * 46 < (k : ℚ) - 4 := by
        rw [lt_div_iff₀ (by norm_num : (0:ℚ) < 46)] at h2
        linarith
      have hfl : ⌊q * 46⌋ = k - 5 := by
        apply Int.floor_eq_iff.mpr
        constructor
        · push_cast
          linarith
        · push_cast
          linarith
      omega

/-- Witness for C6: draw 1/2 yields price 28 for a URL-only request. -/
theorem createTask_price_range_status_pending_witness :
    ∃ res, (createTaskService (1/2) "t1" 0
        ⟨some "https://example.com/photo.jpg", none⟩).result = Except.ok res
      ∧ res.status = Status.pending
      ∧ res.price = generateRandomPrice (1/2)
      ∧ 5 ≤ res.price ∧ res.price ≤ 50
      ∧ (∀ k : ℤ, generateRandomPrice (1/2) = k ↔
           ((k : ℚ) - 5) / 46 ≤ (1/2 : ℚ) ∧ (1/2 : ℚ) < ((k : ℚ) - 4) / 46) :=
  createTask_price_range_status_pending (1/2) "t1" 0
    ⟨some "https://example.com/photo.jpg", none⟩ (by norm_num) (by norm_num)
    (by simp [truthy])

/-! ## Content fetcher (`src/modules/images/file.service.ts`) -/

/-- `appConfig.allowedImageTypes`. -/
def allowedImageTypes : List String :=
  ["image/jpeg", "image/png", "image/webp", "image/gif"]

/-- `getExtensionFromMimeType`: lookup table with `jpg` fallback. -/
def getExtensionFromMimeType (mimeType : String) : String :=
  if mimeType = "image/jpeg" then "jpg"
  else if mimeType = "image/jpg" then "jpg"
  else if mimeType = "image/png" then "png"
  else if mimeType = "image/webp" then "webp"
  else if mimeType = "image/gif" then "gif"
  else "jpg"

/-- The regex `^data:([^;]+);base64,(.+)$` of `saveBase64File`: the mime
is the nonempty run before the first `;`, then the literal `;base64,`,
then a nonempty payload; `.` does not match a line terminator and `$`
anchors at end of input, so a payload containing one defeats the match. -/
def parseDataUrl (s : String) : Option (String × String) :=
  let cs := s.data
  if cs.take 5 = "data:".data then
    let rest := cs.drop 5
    let mime := rest.takeWhile (fun c => !(c = ';'))
    let after := rest.drop mime.length
    if mime ≠ [] ∧ after.take 8 = ";base64,".data then
      let payload := after.drop 8
      if payload ≠ [] ∧ payload.all (fun c => !(c = '\n') && !(c = '\r')) then
        some (String.mk mime, String.mk payload)
      else none
    else none
  else none

/-- `path.join(a, b)` for our single-segment arguments: empty segments
are dropped, otherwise joined with `/`. -/
def pathJoin (a b : String) : String :=
  if a = "" then b else if b = "" then a else a ++ "/" ++ b

/-- The final segment of a path (`path.basename` with no suffix
argument), trailing slashes stripped. -/
def jsBasenamePlain (p : String) : String :=
  let cs := p.data.reverse.dropWhile (fun c => c = '/')
  String.mk (cs.takeWhile (fun c => !(c = '/'))).reverse

/-- Helper: the characters after the last `/`. -/
def afterLastSlash (cs : List Char) : List Char :=
  (cs.reverse.takeWhile (fun c => !(c = '/'))).reverse

/-- `path.extname`: from the last `.` of the final segment; empty when
the segment has no dot or only a leading dot. -/
def extname (s : String) : String :=
  let seg := afterLastSlash s.data
  let tail := seg.reverse.takeWhile (fun c => !(c = '.'))
  if tail.length = seg.length then ""
  else if tail.length + 1 = seg.length then ""
  else String.mk ('.' :: tail.reverse)

/-- `path.basename(name, ext)`: final segment, minus the suffix `ext`
when it is a proper suffix. -/
def jsBasename (s ext : String) : String :=
  let seg := afterLastSlash s.data
  let e := ext.data
  if e ≠ [] ∧ seg ≠ e ∧ e.length ≤ seg.length
      ∧ seg.drop (seg.length - e.length) = e then
    String.mk (seg.take (seg.length - e.length))
  else String.mk seg

/-- `generateUniqueFilename`: sanitized base name, timestamp and random
suffix, original extension (defaulting to `.jpg`). -/
def generateUniqueFilename (timestamp : Nat) (random : String)
    (originalName : String) : String :=
  let extension := if extname originalName = "" then ".jpg" else extname originalName
  let nameWithoutExt := jsBasename originalName extension
  let sanitizedName := String.mk (nameWithoutExt.data.map (fun c =>
    if c.isAlphanum || c = '.' || c = '-' then c else '_'))
  sanitizedName ++ "_" ++ toString timestamp ++ "_" ++ random ++ extension

/-- File-service configuration (`tempDir`, `maxDownloadSize` in MB). -/
structure FileCfg where
  tempDir : String
  maxDownloadSize : Nat

/-- Environment of one `saveBase64File` call: the Node base64 decoder
and the clock/random draw behind `generateUniqueFilename`. -/
structure Base64Env where
  decode : String → List Nat
  timestamp : Nat
  random : String

/-- The `try` body of `saveBase64File`: parse, type check, decode, size
check, unique filename, write. -/
def saveBase64FileBody (cfg : FileCfg) (env : Base64Env) (base64Data : String) :
    Except Err (FileInfo × List FileOp) :=
  match parseDataUrl base64Data with
  | none => Except.error (processingError
      "Invalid base64 format. Expected data:image/type;base64,data")
  | some (mimeType, base64String) =>
      if mimeType = "" ∨ base64String = "" then
        Except.error (processingError "Invalid base64 format. Missing mime type or data")
      else if !(allowedImageTypes.contains mimeType) then
        Except.error (processingError ("Invalid file type: " ++ mimeType
          ++ ". Allowed types: " ++ String.intercalate ", " allowedImageTypes))
      else
        let buffer := env.decode base64String
        if buffer.length > cfg.maxDownloadSize * 1024 * 1024 then
          Except.error (processingError ("File size exceeds maximum allowed size of "
            ++ toString cfg.maxDownloadSize ++ "MB"))
        else
          let extension := getExtensionFromMimeType mimeType
          let filename := generateUniqueFilename env.timestamp env.random
            ("uploaded-image." ++ extension)
          let filePath := pathJoin cfg.tempDir filename
          Except.ok (⟨filePath, filename, buffer.length, mimeType⟩,
            [FileOp.write filePath])

/-- `saveBase64File`: the body wrapped by the catch-all that rethrows
every error as `FileSystemError("Failed to save base64 file: ...")`. -/
def saveBase64File (cfg : FileCfg) (env : Base64Env) (base64Data : String) :
    Except Err FileInfo :=
  match saveBase64FileBody cfg env base64Data with
  | Except.ok (fi, _) => Except.ok fi
  | Except.error e =>
      Except.error (fileSystemError ("Failed to save base64 file: " ++ e.msg))

/-- A `fetch` response: only the fields the fetcher reads. -/
structure HttpResponse where
  ok : Bool
  statusText : String
  contentType : Option String
  contentLength : Option String
  body : List Nat

/-- Environment of one `downloadFromUrl` call: whether `new URL(url)`
succeeds, the transport outcome (`Except.error` models a thrown network
failure with its message), the parsed URL's pathname, and the
clock/random draw. -/
structure UrlEnv where
  urlValid : Bool
  fetchResult : Except String HttpResponse
  urlPathname : String
  timestamp : Nat
  random : String

/-- JS `parseInt(s, 10)`: leading whitespace, optional sign, leading
digits; `none` models `NaN`. -/
def parseIntJs (s : String) : Option Int :=
  let cs := s.data.dropWhile (fun c => c = ' ' ∨ c = '\t' ∨ c = '\n' ∨ c = '\r')
  let signed : Int × List Char :=
    match cs with
    | '-' :: r => (-1, r)
    | '+' :: r => (1, r)
    | _ => (1, cs)
  let digits := signed.2.takeWhile Char.isDigit
  if digits = [] then none
  else some (signed.1 * ((digits.foldl (fun acc c => acc * 10 + (c.toNat - 48)) 0 : Nat) : Int))

/-- The `try` body of `downloadFromUrl`: URL validation, transport,
status check, content-type check, declared-length check (a missing
header counts as size 0, an unparsable one as `NaN` which passes),
received-byte check, unique filename, write. -/
def downloadFromUrlBody (cfg : FileCfg) (env : UrlEnv) :
    Except Err (FileInfo × List FileOp) :=
  if !env.urlValid then
    Except.error (processingError "Invalid URL format")
  else
    match env.fetchResult with
    | Except.error m => Except.error ⟨ErrKind.generic, m⟩
    | Except.ok resp =>
        if !resp.ok then
          Except.error (processingError ("Failed to download file from URL: "
            ++ resp.statusText))
        else
          match resp.contentType with
          | none => Except.error (processingError "Invalid image type from URL")
          | some ct =>
              if !(allowedImageTypes.contains ct) then
                Except.error (processingError "Invalid image type from URL")
              else
                let fileSize : Int :=
                  match resp.contentLength with
                  | some s => match parseIntJs s with
                      | some n => n
                      | none => 0
                  | none => 0
                if fileSize > ((cfg.maxDownloadSize * 1024 * 1024 : Nat) : Int) then
                  Except.error (processingError ("File size exceeds maximum allowed size of "
                    ++ toString cfg.maxDownloadSize ++ "MB"))
                else if resp.body.length > cfg.maxDownloadSize * 1024 * 1024 then
                  Except.error (processingError ("File size exceeds maximum allowed size of "
                    ++ toString cfg.maxDownloadSize ++ "MB"))
                else
                  let originalName :=
                    if jsBasenamePlain env.urlPathname = "" then "downloaded-image"
                    else jsBasenamePlain env.urlPathname
                  let filename := generateUniqueFilename env.timestamp env.random originalName
                  let filePath := pathJoin cfg.tempDir filename
                  Except.ok (⟨filePath, filename, resp.body.length, ct⟩,
                    [FileOp.write filePath])

/-- `downloadFromUrl`: the body wrapped by the catch-all that rethrows
every error as `ProcessingError("Failed to download file from URL: ...")`. -/
def downloadFromUrl (cfg : FileCfg) (env : UrlEnv) : Except Err FileInfo :=
  match downloadFromUrlBody cfg env with
  | Except.ok (fi, _) => Except.ok fi
  | Except.error e =>
      Except.error (processingError ("Failed to download file from URL: " ++ e.msg))

/-- A successful `parseDataUrl` yields a nonempty mime and payload. -/
theorem parseDataUrl_parts_nonempty {s m p : String}
    (h : parseDataUrl s = some (m, p)) : ¬(m = "" ∨ p = "") := by
  simp only [parseDataUrl] at h
  split_ifs at h with h1 h2 h3
  · rintro (hc | hc)
    · subst hc
      apply h2.1
      simpa using congrArg String.data (congrArg Prod.fst (Option.some.inj h))
    · subst hc
      apply h3.1
      simpa using congrArg String.data (congrArg Prod.snd (Option.some.inj h))

/-- C5 (amended): within each fetch path the surfaced error class is
uniform — every `downloadFromUrl` failure is a `ProcessingError`, but
every `saveBase64File` failure is a `FileSystemError` (wrapping the
discriminating message); the two paths do not share one kind. -/
theorem fetcher_error_kind_uniform_per_path
    (cfg : FileCfg) (benv : Base64Env) (uenv : UrlEnv) (data : String) :
    (∀ e, saveBase64File cfg benv data = Except.error e →
        e.kind = ErrKind.fileSystem)
    ∧ (∀ e, downloadFromUrl cfg uenv = Except.error e →
        e.kind = ErrKind.processing) := by
  constructor
  · intro e he
    unfold saveBase64File at he
    cases h : saveBase64FileBody cfg benv data with
    | ok v =>
        obtain ⟨fi, ops⟩ := v
        rw [h] at he
        cases he
    | error e0 =>
        rw [h] at he
        cases he
        rfl
  · intro e he
    unfold downloadFromUrl at he
    cases h : downloadFromUrlBody cfg uenv with
    | ok v =>
        obtain ⟨fi, ops⟩ := v
        rw [h] at he
        cases he
    | error e0 =>
        rw [h] at he
        cases he
        rfl

/-- Witness for the amended C5: a malformed inline payload surfaces a
`FileSystemError`; an invalid URL surfaces a `ProcessingError`. -/
theorem fetcher_error_kind_uniform_per_path_witness :
    (Err.mk ErrKind.fileSystem
      "Failed to save base64 file: Invalid base64 format. Expected data:image/type;base64,data").kind
        = ErrKind.fileSystem
    ∧ (Err.mk ErrKind.processing
        "Failed to download file from URL: Invalid URL format").kind
        = ErrKind.processing :=
  ⟨(fetcher_error_kind_uniform_per_path ⟨"/temp", 25⟩ ⟨fun _ => [], 0, "r0"⟩
      ⟨false, Except.error "net", "/x.png", 0, "r0"⟩ "not-a-data-url").1 _ rfl,
   (fetcher_error_kind_uniform_per_path ⟨"/temp", 25⟩ ⟨fun _ => [], 0, "r0"⟩
      ⟨false, Except.error "net", "/x.png", 0, "r0"⟩ "not-a-data-url").2 _ rfl⟩

/-- Counterexample to C5 as stated: the inline path surfaces its failure
as a `FileSystemError`, not the `ProcessingError` kind of the URL path. -/
theorem inline_and_url_fetch_error_kinds_differ :
    saveBase64File ⟨"/temp", 25⟩ ⟨fun _ => [], 0, "r0"⟩ "not-a-data-url"
      = Except.error (Err.mk ErrKind.fileSystem
          "Failed to save base64 file: Invalid base64 format. Expected data:image/type;base64,data")
    ∧ downloadFromUrl ⟨"/temp", 25⟩ ⟨false, Except.error "net", "/x.png", 0, "r0"⟩
      = Except.error (Err.mk ErrKind.processing
          "Failed to download file from URL: Invalid URL format")
    ∧ ErrKind.fileSystem ≠ ErrKind.processing := by
  refine ⟨rfl, rfl, by decide⟩

/-- C10: every size check is a strict inequality. A decoded inline
payload or received body of exactly `maxDownloadSize * 1024 * 1024`
bytes is accepted; the size error appears only one byte above; a
response with no content-length header passes the declared-length check
(size 0) and a declared length of exactly the limit also passes. -/
theorem size_limit_checks_are_strict (cfg : FileCfg) :
    (∀ benv : Base64Env, ∀ data mime payload,
        parseDataUrl data = some (mime, payload) →
        allowedImageTypes.contains mime = true →
        (benv.decode payload).length ≤ cfg.maxDownloadSize * 1024 * 1024 →
        ∃ fi, saveBase64File cfg benv data = Except.ok fi
          ∧ fi.size = (benv.decode payload).length)
    ∧ (∀ benv : Base64Env, ∀ data mime payload,
        parseDataUrl data = some (mime, payload) →
        allowedImageTypes.contains mime = true →
        (benv.decode payload).length = cfg.maxDownloadSize * 1024 * 1024 + 1 →
        saveBase64File cfg benv data = Except.error (fileSystemError
          ("Failed to save base64 file: " ++ ("File size exceeds maximum allowed size of "
            ++ toString cfg.maxDownloadSize ++ "MB"))))
    ∧ (∀ env : UrlEnv, ∀ resp ct,
        env.urlValid = true → env.fetchResult = Except.ok resp →
        resp.ok = true → resp.contentType = some ct →
        allowedImageTypes.contains ct = true →
        resp.contentLength = none →
        resp.body.length ≤ cfg.maxDownloadSize * 1024 * 1024 →
        ∃ fi, downloadFromUrl cfg env = Except.ok fi
          ∧ fi.size = resp.body.length)
    ∧ (∀ env : UrlEnv, ∀ resp ct s,
        env.urlValid = true → env.fetchResult = Except.ok resp →
        resp.ok = true → resp.contentType = some ct →
        allowedImageTypes.contains ct = true →
        resp.contentLength = some s →
        parseIntJs s = some ((cfg.maxDownloadSize * 1024 * 1024 : Nat) : Int) →
        resp.body.length ≤ cfg.maxDownloadSize * 1024 * 1024 →
        ∃ fi, downloadFromUrl cfg env = Except.ok fi
          ∧ fi.size = resp.body.length)
    ∧ (∀ env : UrlEnv, ∀ resp ct,
        env.urlValid = true → env.fetchResult = Except.ok resp →
        resp.ok = true → resp.contentType = some ct →
        allowedImageTypes.contains ct = true →
        resp.contentLength = none →
        resp.body.length = cfg.maxDownloadSize * 1024 * 1024 + 1 →
        downloadFromUrl cfg env = Except.error (processingError
          ("Failed to download file from URL: " ++ ("File size exceeds maximum allowed size of "
            ++ toString cfg.maxDownloadSize ++ "MB")))) := by
  refine ⟨?_, ?_, ?_, ?_, ?_⟩
  · intro benv data mime payload hp hm hlen
    have hne := parseDataUrl_parts_nonempty hp
    have hm' : mime ∈ allowedImageTypes := by simpa using hm
    refine ⟨⟨pathJoin cfg.tempDir (generateUniqueFilename benv.timestamp benv.random
        ("uploaded-image." ++ getExtensionFromMimeType mime)),
      generateUniqueFilename benv.timestamp benv.random
        ("uploaded-image." ++ getExtensionFromMimeType mime),
      (benv.decode payload).length, mime⟩, ?_, rfl⟩
    simp [saveBase64File, saveBase64FileBody, hp, hne, hm', Nat.not_lt.mpr hlen]
  · intro benv data mime payload hp hm hlen
    have hne := parseDataUrl_parts_nonempty hp
    have hm' : mime ∈ allowedImageTypes := by simpa using hm
    simp [saveBase64File, saveBase64FileBody, hp, hne, hm', hlen, processingError,
      fileSystemError, Nat.lt_succ_self]
  · intro env resp ct hv hr hok hct hallow hcl hlen
    have hallow' : ct ∈ allowedImageTypes := by simpa using hallow
    have h0 : (0 : Int) ≤ (cfg.maxDownloadSize : Int) * 1024 * 1024 := by positivity
    refine ⟨⟨pathJoin cfg.tempDir (generateUniqueFilename env.timestamp env.random
        (if jsBasenamePlain env.urlPathname = "" then "downloaded-image"
         else jsBasenamePlain env.urlPathname)),
      generateUniqueFilename env.timestamp env.random
        (if jsBasenamePlain env.urlPathname = "" then "downloaded-image"
         else jsBasenamePlain env.urlPathname),
      resp.body.length, ct⟩, ?_, rfl⟩
    simp [downloadFromUrl, downloadFromUrlBody, hv, hr, hok, hct, hallow', hcl,
      Nat.not_lt.mpr hlen, Int.not_lt.mpr h0]
  · intro env resp ct s hv hr hok hct hallow hcl hparse hlen
    have hallow' : ct ∈ allowedImageTypes := by simpa using hallow
    refine ⟨⟨pathJoin cfg.tempDir (generateUniqueFilename env.timestamp env.random
        (if jsBasenamePlain env.urlPathname = "" then "downloaded-image"
         else jsBasenamePlain env.urlPathname)),
      generateUniqueFilename env.timestamp env.random
        (if jsBasenamePlain env.urlPathname = "" then "downloaded-image"
         else jsBasenamePlain env.urlPathname),
      resp.body.length, ct⟩, ?_, rfl⟩
    simp [downloadFromUrl, downloadFromUrlBody, hv, hr, hok, hct, hallow', hcl,
      hparse, Nat.not_lt.mpr hlen]
  · intro env resp ct hv hr hok hct hallow hcl hlen
    have hallow' : ct ∈ allowedImageTypes := by simpa using hallow
    have h0 : (0 : Int) ≤ (cfg.maxDownloadSize : Int) * 1024 * 1024 := by positivity
    simp [downloadFromUrl, downloadFromUrlBody, hv, hr, hok, hct, hallow', hcl,
      hlen, processingError, Nat.lt_succ_self, Int.not_lt.mpr h0]

/-- Witness for C10: with a limit of 0 MB an empty decoded payload and
an empty response body (no content-length header) are both accepted. -/
theorem size_limit_checks_are_strict_witness :
    (∃ fi, saveBase64File ⟨"/temp", 0⟩ ⟨fun _ => [], 3, "r0"⟩
        "data:image/png;base64,AAAA" = Except.ok fi
      ∧ fi.size = ((⟨fun _ => [], 3, "r0"⟩ : Base64Env).decode "AAAA").length)
    ∧ (∃ fi, downloadFromUrl ⟨"/temp", 0⟩
        ⟨true, Except.ok ⟨true, "OK", some "image/png", none, []⟩, "/a.png", 3, "r0"⟩
        = Except.ok fi
      ∧ fi.size = (HttpResponse.mk true "OK" (some "image/png") none []).body.length) :=
  ⟨(size_limit_checks_are_strict ⟨"/temp", 0⟩).1 ⟨fun _ => [], 3, "r0"⟩
      "data:image/png;base64,AAAA" "image/png" "AAAA" rfl rfl (by decide),
   (size_limit_checks_are_strict ⟨"/temp", 0⟩).2.2.1
      ⟨true, Except.ok ⟨true, "OK", some "image/png", none, []⟩, "/a.png", 3, "r0"⟩
      ⟨true, "OK", some "image/png", none, []⟩ "image/png"
      rfl rfl rfl rfl rfl rfl (by decide)⟩

/-! ## Variant renderer (`src/modules/images/image.service.ts`) -/

/-- A character kept verbatim by `sanitizeFileName`'s character class
`[a-zA-Z0-9.-]`. -/
def keepChar (c : Char) : Bool := c.isAlphanum || c = '.' || c = '-'

/-- The `_{2,}` → `_` pass of `sanitizeFileName`: collapse each run of
underscores to a single one. -/
def collapseUnderscoreRuns : List Char → List Char
  | [] => []
  | [c] => [c]
  | c1 :: c2 :: rest =>
      if c1 = '_' ∧ c2 = '_' then collapseUnderscoreRuns (c2 :: rest)
      else c1 :: collapseUnderscoreRuns (c2 :: rest)

/-- The `^_` part of `sanitizeFileName`'s edge trim: drop one leading
underscore. -/
def trimLeadingUnderscore (l : List Char) : List Char :=
  match l with
  | c :: rest => if c = '_' then rest else c :: rest
  | [] => []

/-- The `_$` part of the edge trim: drop one trailing underscore. -/
def trimTrailingUnderscore : List Char → List Char
  | [] => []
  | [c] => if c = '_' then [] else [c]
  | c :: rest => c :: trimTrailingUnderscore rest

/-- `sanitizeFileName`: replace each character outside `[a-zA-Z0-9.-]`
by `_`, collapse runs of underscores, trim one underscore at each edge. -/
def sanitizeFileName (s : String) : String :=
  String.mk (trimTrailingUnderscore (trimLeadingUnderscore
    (collapseUnderscoreRuns (s.data.map (fun c => if keepChar c then c else '_')))))

/-- No two adjacent underscores. -/
def noAdjacentUnderscores : List Char → Bool
  | [] => true
  | [_] => true
  | c1 :: c2 :: rest =>
      if c1 = '_' ∧ c2 = '_' then false else noAdjacentUnderscores (c2 :: rest)

theorem mem_collapseUnderscoreRuns : ∀ (l : List Char) (c : Char),
    c ∈ collapseUnderscoreRuns l → c ∈ l
  | [], c, h => by simp [collapseUnderscoreRuns] at h
  | [a], c, h => by simpa [collapseUnderscoreRuns] using h
  | a :: b :: rest, c, h => by
      by_cases hab : a = '_' ∧ b = '_'
      · have hm := mem_collapseUnderscoreRuns (b :: rest) c
          (by simpa [collapseUnderscoreRuns, hab] using h)
        exact List.mem_cons_of_mem _ hm
      · rcases (by simpa [collapseUnderscoreRuns, hab] using h :
            c = a ∨ c ∈ collapseUnderscoreRuns (b :: rest)) with hc | hc
        · simp [hc]
        · exact List.mem_cons_of_mem _ (mem_collapseUnderscoreRuns (b :: rest) c hc)

theorem head?_collapseUnderscoreRuns : ∀ l : List Char,
    (collapseUnderscoreRuns l).head? = l.head?
  | [] => rfl
  | [_] => rfl
  | a :: b :: rest => by
      by_cases hab : a = '_' ∧ b = '_'
      · have ih := head?_collapseUnderscoreRuns (b :: rest)
        simp only [collapseUnderscoreRuns, if_pos hab, ih, List.head?_cons]
        rw [hab.1, hab.2]
      · simp [collapseUnderscoreRuns, hab]

theorem noAdj_collapseUnderscoreRuns : ∀ l : List Char,
    noAdjacentUnderscores (collapseUnderscoreRuns l) = true
  | [] => rfl
  | [_] => rfl
  | a :: b :: rest => by
      have ih := noAdj_collapseUnderscoreRuns (b :: rest)
      by_cases hab : a = '_' ∧ b = '_'
      · simpa [collapseUnderscoreRuns, hab] using ih
      · have hh := head?_collapseUnderscoreRuns (b :: rest)
        simp only [collapseUnderscoreRuns, if_neg hab]
        cases hcb : collapseUnderscoreRuns (b :: rest) with
        | nil => simp [noAdjacentUnderscores]
        | cons d ds =>
            have hd : d = b := by
              rw [hcb] at hh
              simpa using hh
            subst hd
            rw [hcb] at ih
            simpa [noAdjacentUnderscores, hab] using ih

theorem noAdj_tail {c : Char} {l : List Char}
    (h : noAdjacentUnderscores (c :: l) = true) :
    noAdjacentUnderscores l = true := by
  cases l with
  | nil => rfl
  | cons b rest =>
      by_cases hcb : c = '_' ∧ b = '_'
      · simp [noAdjacentUnderscores, hcb] at h
      · simpa [noAdjacentUnderscores, hcb] using h

theorem noAdj_trimLeading {l : List Char}
    (h : noAdjacentUnderscores l = true) :
    noAdjacentUnderscores (trimLeadingUnderscore l) = true := by
  cases l with
  | nil => rfl
  | cons a rest =>
      by_cases ha : a = '_'
      · simpa [trimLeadingUnderscore, ha] using noAdj_tail h
      · simpa [trimLeadingUnderscore, ha] using h

theorem mem_trimLeading {c : Char} {l : List Char}
    (h : c ∈ trimLeadingUnderscore l) : c ∈ l := by
  cases l with
  | nil => simp [trimLeadingUnderscore] at h
  | cons a rest =>
      by_cases ha : a = '_'
      · exact List.mem_cons_of_mem _ (by simpa [trimLeadingUnderscore, ha] using h)
      · simpa [trimLeadingUnderscore, ha] using h

theorem mem_trimTrailing : ∀ {c : Char} {l : List Char},
    c ∈ trimTrailingUnderscore l → c ∈ l := by
  intro c l
  induction l with
  | nil => simp [trimTrailingUnderscore]
  | cons a rest ih =>
      cases rest with
      | nil =>
          by_cases ha : a = '_' <;> simp [trimTrailingUnderscore, ha]
      | cons b rs =>
          intro h
          rcases (by simpa [trimTrailingUnderscore] using h :
              c = a ∨ c ∈ trimTrailingUnderscore (b :: rs)) with hc | hc
          · simp [hc]
          · exact List.mem_cons_of_mem _ (ih hc)

theorem trimTrailing_head : ∀ (b : Char) (rest : List Char) {d : Char}
    {ds : List Char}, trimTrailingUnderscore (b :: rest) = d :: ds → d = b := by
  intro b rest d ds h
  cases rest with
  | nil =>
      by_cases hb : b = '_' <;> simp [trimTrailingUnderscore, hb] at h
      exact h.1.symm
  | cons x xs =>
      rw [show trimTrailingUnderscore (b :: x :: xs)
        = b :: trimTrailingUnderscore (x :: xs) from rfl] at h
      exact (List.cons.injEq .. ▸ h).1.symm

theorem noAdj_trimTrailing : ∀ (l : List Char),
    noAdjacentUnderscores l = true →
    noAdjacentUnderscores (trimTrailingUnderscore l) = true
  | [], _ => rfl
  | [c], _ => by
      by_cases hc : c = '_' <;> simp [trimTrailingUnderscore, hc, noAdjacentUnderscores]
  | a :: b :: rest, h => by
      have hab : ¬(a = '_' ∧ b = '_') := by
        by_contra hcontra
        simp [noAdjacentUnderscores, hcontra] at h
      have ih := noAdj_trimTrailing (b :: rest) (noAdj_tail h)
      rw [show trimTrailingUnderscore (a :: b :: rest)
        = a :: trimTrailingUnderscore (b :: rest) from rfl]
      cases hT : trimTrailingUnderscore (b :: rest) with
      | nil => rfl
      | cons d ds =>
          have hd := trimTrailing_head b rest hT
          subst hd
          rw [hT] at ih
          simpa [noAdjacentUnderscores, hab] using ih

theorem head?_trimLeading {l : List Char}
    (h : noAdjacentUnderscores l = true) :
    (trimLeadingUnderscore l).head? ≠ some '_' := by
  cases l with
  | nil => simp [trimLeadingUnderscore]
  | cons a rest =>
      by_cases ha : a = '_'
      · subst ha
        cases rest with
        | nil => simp [trimLeadingUnderscore]
        | cons b rs =>
            have hb : ¬b = '_' := by
              by_contra hb
              simp [noAdjacentUnderscores, hb] at h
            simp [trimLeadingUnderscore, hb]
      · simp [trimLeadingUnderscore, ha]

theorem head?_trimTrailing_ne {l : List Char} (h : l.head? ≠ some '_') :
    (trimTrailingUnderscore l).head? ≠ some '_' := by
  match l with
  | [] => simp [trimTrailingUnderscore]
  | [c] =>
      by_cases hc : c = '_'
      · simp [trimTrailingUnderscore, hc]
      · simp only [trimTrailingUnderscore, if_neg hc]
        exact h
  | a :: b :: rest =>
      rw [show trimTrailingUnderscore (a :: b :: rest)
        = a :: trimTrailingUnderscore (b :: rest) from rfl]
      simpa using h

theorem getLast?_trimTrailing : ∀ (l : List Char),
    noAdjacentUnderscores l = true →
    (trimTrailingUnderscore l).getLast? ≠ some '_'
  | [], _ => by simp [trimTrailingUnderscore]
  | [c], _ => by
      by_cases hc : c = '_' <;> simp [trimTrailingUnderscore, hc]
  | a :: b :: rest, h => by
      have hab : ¬(a = '_' ∧ b = '_') := by
        by_contra hcontra
        simp [noAdjacentUnderscores, hcontra] at h
      have ih := getLast?_trimTrailing (b :: rest) (noAdj_tail h)
      rw [show trimTrailingUnderscore (a :: b :: rest)
        = a :: trimTrailingUnderscore (b :: rest) from rfl]
      cases hT : trimTrailingUnderscore (b :: rest) with
      | nil =>
          have hb : rest = [] ∧ b = '_' := by
            cases rest with
            | nil =>
                by_cases hb' : b = '_'
                · exact ⟨rfl, hb'⟩
                · simp [trimTrailingUnderscore, hb'] at hT
            | cons x xs =>
                rw [show trimTrailingUnderscore (b :: x :: xs)
                  = b :: trimTrailingUnderscore (x :: xs) from rfl] at hT
                cases hT
          have ha : ¬a = '_' := fun haa => hab ⟨haa, hb.2⟩
          simpa using ha
      | cons d ds =>
          rw [List.getLast?_cons_cons]
          rw [hT] at ih
          exact ih

/-- No two adjacent non-alphanumeric characters (the shape the spec
sentence ascribes to sanitized names). -/
def noAdjacentNonAlnum : List Char → Bool
  | [] => true
  | [_] => true
  | c1 :: c2 :: rest =>
      if ¬c1.isAlphanum ∧ ¬c2.isAlphanum then false
      else noAdjacentNonAlnum (c2 :: rest)

/-- Modelled from the spec's words for C8: every run of non-alphanumeric
characters becomes one separator and no separator remains at either
edge — so the result never has two adjacent non-alphanumeric characters
nor a non-alphanumeric first or last character. -/
def specSanitizedShape (r : String) : Bool :=
  noAdjacentNonAlnum r.data
  && (match r.data.head? with | some c => c.isAlphanum | none => true)
  && (match r.data.getLast? with | some c => c.isAlphanum | none => true)

/-- Counterexample to C8 as stated: `sanitizeFileName` keeps `.` and `-`
verbatim, so adjacent non-alphanumeric characters survive — on `"a..b"`
the run `".."` is not collapsed to a single separator. -/
theorem sanitize_keeps_adjacent_dots :
    sanitizeFileName "a..b" = "a..b"
    ∧ specSanitizedShape (sanitizeFileName "a..b") = false := by
  exact ⟨rfl, rfl⟩

/-- C8 (amended): `sanitizeFileName` maps every character outside
`[a-zA-Z0-9.-]` to the separator `_`, collapses runs of underscores to a
single one, and leaves no underscore at either edge; dots and hyphens
are kept verbatim (and may remain adjacent or at the edges). -/
theorem sanitizeFileName_separator_shape (s : String) :
    (∀ c ∈ (sanitizeFileName s).data, keepChar c = true ∨ c = '_')
    ∧ noAdjacentUnderscores (sanitizeFileName s).data = true
    ∧ (sanitizeFileName s).data.head? ≠ some '_'
    ∧ (sanitizeFileName s).data.getLast? ≠ some '_' := by
  unfold sanitizeFileName
  have hmapped : ∀ c ∈ s.data.map (fun c => if keepChar c then c else '_'),
      keepChar c = true ∨ c = '_' := by
    intro c hc
    obtain ⟨a, _, ha⟩ := List.mem_map.mp hc
    by_cases hk : keepChar a
    · left
      rw [← ha]
      simp [hk]
    · right
      rw [← ha]
      simp [hk]
  have hcol := noAdj_collapseUnderscoreRuns
    (s.data.map (fun c => if keepChar c then c else '_'))
  refine ⟨?_, ?_, ?_, ?_⟩
  · intro c hc
    exact hmapped c (mem_collapseUnderscoreRuns _ _
      (mem_trimLeading (mem_trimTrailing hc)))
  · exact noAdj_trimTrailing _ (noAdj_trimLeading hcol)
  · exact head?_trimTrailing_ne (head?_trimLeading hcol)
  · exact getLast?_trimTrailing _ (noAdj_trimLeading hcol)

/-- Witness for the amended C8 at the concrete name `"a b!!c"`
(which sanitizes to `"a_b_c"`). -/
theorem sanitizeFileName_separator_shape_witness :
    (keepChar 'a' = true ∨ 'a' = '_')
    ∧ noAdjacentUnderscores (sanitizeFileName "a b!!c").data = true :=
  ⟨(sanitizeFileName_separator_shape "a b!!c").1 'a' (by decide),
   (sanitizeFileName_separator_shape "a b!!c").2.1⟩

/-- `imageInfo.width || 1` / `imageInfo.height || 1`: an absent or zero
dimension is replaced by 1. -/
def orOne : Option Nat → Nat
  | none => 1
  | some 0 => 1
  | some n => n

/-- Sharp metadata: the dimensions the renderer reads (possibly absent). -/
structure SharpMeta where
  width : Option Nat
  height : Option Nat
deriving DecidableEq, Repr

/-- The external renderer functions: Sharp's resize-and-JPEG-encode and
the MD5 hex digest, both deterministic functions of their inputs. -/
structure RenderFns where
  encodeJpeg : List Nat → Nat → ℤ → List Nat
  md5hex : List Nat → String

/-- JS `Math.round`: half-up rounding. -/
def jsRound (x : ℚ) : ℤ := ⌊x + 1/2⌋

/-- The record assembled by `createImageVariant` (both the on-disk write
path and the `/output`-relative path stored in the database). -/
structure RenderedVariant where
  resolution : String
  relativePath : String
  outputPath : String
  md5 : String
  size : Nat
  width : Nat
  height : ℤ
deriving DecidableEq, Repr

/-- `createImageVariant`: resolution label, aspect-preserving target
height, Sharp re-encode, MD5 content hash, hash-named output path under
`<base>/<resolution>/`, and the `/output`-relative database path. -/
def createImageVariant (fns : RenderFns) (imageBuffer : List Nat)
    (meta : SharpMeta) (baseOutputPath : String) (targetWidth : Nat) :
    RenderedVariant :=
  let resolution := toString targetWidth
  let resolutionDir := pathJoin baseOutputPath resolution
  let aspect : ℚ := (orOne meta.height : ℚ) / (orOne meta.width : ℚ)
  let targetHeight := jsRound ((targetWidth : ℚ) * aspect)
  let processedBuffer := fns.encodeJpeg imageBuffer targetWidth targetHeight
  let md5 := fns.md5hex processedBuffer
  let filename := md5 ++ "." ++ "jpg"
  let outputPath := pathJoin resolutionDir filename
  let relativePath := pathJoin (pathJoin (pathJoin "/output"
    (sanitizeFileName (jsBasenamePlain baseOutputPath))) resolution) filename
  { resolution := resolution
    relativePath := relativePath
    outputPath := outputPath
    md5 := md5
    size := processedBuffer.length
    width := targetWidth
    height := targetHeight }

/-- The base output directory `processImage` hands to
`createImageVariant`: `path.join(outputDir, sanitizeFileName(name))`. -/
def processImageBasePath (outputDir originalName : String) : String :=
  pathJoin outputDir (sanitizeFileName originalName)

theorem toDigitsCore_eq_nil (b : Nat) : ∀ (fuel n : Nat) (ds : List Char),
    Nat.toDigitsCore b fuel n ds = [] → ds = []
  | 0, _, _, h => h
  | fuel + 1, n, ds, h => by
      simp only [Nat.toDigitsCore] at h
      split_ifs at h
      have h5 := toDigitsCore_eq_nil b fuel (n / b)
        ((n % b).digitChar :: ds) h
      cases h5

theorem nat_toString_ne_empty (n : Nat) : toString n ≠ "" := by
  intro h
  have h2 : (Nat.toDigits 10 n) = [] := by
    have h3 := congrArg String.data h
    simpa [toString, Nat.repr, List.asString] using h3
  unfold Nat.toDigits at h2
  simp only [Nat.toDigitsCore] at h2
  split_ifs at h2
  have h5 := toDigitsCore_eq_nil 10 n (n / 10) _ h2
  cases h5

theorem append_ne_empty_of_right {a b : String} (hb : b ≠ "") :
    a ++ b ≠ "" := by
  intro h
  apply hb
  have h1 := congrArg String.length h
  rw [String.length_append] at h1
  have h2 : b.length = 0 := by
    have := String.length_empty
    omega
  cases b with
  | mk data =>
      cases data with
      | nil => rfl
      | cons c cs => simp [String.length] at h2

/-- C7: rendering is deterministic in the stored location — bit-identical
source bytes at the same width yield the same content hash and output
path — and the write path follows
`<outputRoot>/<sanitized-original-name>/<resolutionLabel>/<contentHash>.<ext>`. -/
theorem variant_path_content_addressed
    (fns : RenderFns) (outputDir name : String) (b1 b2 : List Nat)
    (meta : SharpMeta) (w : Nat)
    (hdir : outputDir ≠ "") (hsan : sanitizeFileName name ≠ "")
    (hb : b1 = b2) :
    (createImageVariant fns b1 meta (processImageBasePath outputDir name) w).md5
      = (createImageVariant fns b2 meta (processImageBasePath outputDir name) w).md5
    ∧ (createImageVariant fns b1 meta (processImageBasePath outputDir name) w).outputPath
      = (createImageVariant fns b2 meta (processImageBasePath outputDir name) w).outputPath
    ∧ (createImageVariant fns b1 meta (processImageBasePath outputDir name) w).outputPath
      = outputDir ++ "/" ++ sanitizeFileName name ++ "/" ++ toString w ++ "/"
        ++ ((createImageVariant fns b1 meta
              (processImageBasePath outputDir name) w).md5 ++ "." ++ "jpg") := by
  subst hb
  have hbase : processImageBasePath outputDir name
      = outputDir ++ "/" ++ sanitizeFileName name := by
    simp [processImageBasePath, pathJoin, hdir, hsan]
  have hbase_ne : processImageBasePath outputDir name ≠ "" := by
    rw [hbase]
    exact append_ne_empty_of_right hsan
  have hres_ne : toString w ≠ "" := nat_toString_ne_empty w
  have hlvl1 : pathJoin (processImageBasePath outputDir name) (toString w)
      = outputDir ++ "/" ++ sanitizeFileName name ++ "/" ++ toString w := by
    unfold pathJoin
    rw [if_neg hbase_ne, if_neg hres_ne, hbase]
  have hlvl1_ne : outputDir ++ "/" ++ sanitizeFileName name ++ "/" ++ toString w ≠ "" :=
    append_ne_empty_of_right hres_ne
  have hfile_ne : ∀ mstr : String, mstr ++ "." ++ "jpg" ≠ "" :=
    fun mstr => append_ne_empty_of_right (by decide)
  refine ⟨rfl, rfl, ?_⟩
  simp only [createImageVariant]
  rw [hlvl1]
  simp [pathJoin, hlvl1_ne, hfile_ne]

/-- Witness for C7 at a concrete renderer, directory and name. -/
theorem variant_path_content_addressed_witness :
    (createImageVariant ⟨fun _ _ _ => [1, 2], fun _ => "abc"⟩ [7]
        ⟨some 100, some 50⟩ (processImageBasePath "/out" "photo one.jpg") 800).md5
      = (createImageVariant ⟨fun _ _ _ => [1, 2], fun _ => "abc"⟩ [7]
          ⟨some 100, some 50⟩ (processImageBasePath "/out" "photo one.jpg") 800).md5
    ∧ (createImageVariant ⟨fun _ _ _ => [1, 2], fun _ => "abc"⟩ [7]
        ⟨some 100, some 50⟩ (processImageBasePath "/out" "photo one.jpg") 800).outputPath
      = (createImageVariant ⟨fun _ _ _ => [1, 2], fun _ => "abc"⟩ [7]
          ⟨some 100, some 50⟩ (processImageBasePath "/out" "photo one.jpg") 800).outputPath
    ∧ (createImageVariant ⟨fun _ _ _ => [1, 2], fun _ => "abc"⟩ [7]
        ⟨some 100, some 50⟩ (processImageBasePath "/out" "photo one.jpg") 800).outputPath
      = "/out" ++ "/" ++ sanitizeFileName "photo one.jpg" ++ "/" ++ toString 800 ++ "/"
        ++ ((createImageVariant ⟨fun _ _ _ => [1, 2], fun _ => "abc"⟩ [7]
              ⟨some 100, some 50⟩ (processImageBasePath "/out" "photo one.jpg") 800).md5
            ++ "." ++ "jpg") :=
  variant_path_content_addressed ⟨fun _ _ _ => [1, 2], fun _ => "abc"⟩
    "/out" "photo one.jpg" [7] [7] ⟨some 100, some 50⟩ 800
    (by decide) (by decide) rfl

/-- C9 evidence: on the failure path the catch block fetches the source a
second time, writing a fresh scratch file, and deletes only that fresh
copy — the scratch file of the original fetch is never cleaned up, while
on the success path it is. -/
theorem scratch_file_leaked_on_failure :
    let req : CreateTaskRequest := ⟨none, some "data:image/png;base64,AAAA"⟩
    let failEnv : RunEnv :=
      ⟨fun n => Except.ok ⟨if n = 0 then "/temp/img_1_a.png" else "/temp/img_2_b.png",
          "f", 4, "image/png"⟩,
        Except.error (processingError
          "Failed to process image: Invalid image format or corrupted image file"),
        Except.ok (), 9, 9⟩
    let okEnv : RunEnv :=
      ⟨fun _ => Except.ok ⟨"/temp/img_1_a.png", "f", 4, "image/png"⟩,
        Except.ok [⟨"1024", "/output/p/1024/h.jpg", "h"⟩],
        Except.ok (), 9, 9⟩
    (backgroundRun req failEnv "t1").fileOps
      = [FileOp.write "/temp/img_1_a.png", FileOp.write "/temp/img_2_b.png",
         FileOp.cleanup "/temp/img_2_b.png"]
    ∧ FileOp.cleanup "/temp/img_1_a.png" ∉ (backgroundRun req failEnv "t1").fileOps
    ∧ (backgroundRun req failEnv "t1").storeWrites.getLast?
        = some (StoreWrite.setFailed 9
            "Failed to process image: Invalid image format or corrupted image file")
    ∧ (backgroundRun req okEnv "t1").fileOps
        = [FileOp.write "/temp/img_1_a.png", FileOp.cleanup "/temp/img_1_a.png"] := by
  exact ⟨by decide, by decide, by decide, by decide⟩

end ImgProc
